import Mathlib

/-!
# SSH key provisioning (`pkg/cmd/auth/shared/ssh_keys.go`)

A shallow embedding of `localPublicKeys`, `findKeygen`, `generateSSHKey`,
`sshKeyUpload` and `isDuplicateError`.

* Every call that leaves the file (prompts, the file system, process launch, the
  HTTP client, `config.HomeDirPath`, `api.HandleHTTPError`, ...) is an oracle of the
  environment `Env`; the effects a function performs are recorded, in order, in the
  state `Sys` that is threaded through it, together with the resource handles that
  are currently open.
* Go values of type `error` are `Option GoError` (`none` is `nil`); a Go result pair
  `(v, err)` of a library call is an `Except GoError _`.
* File contents, JSON documents and request bodies are byte sequences (`List Nat`,
  each element a byte); paths, messages and command arguments are `String`s.
* The pure standard-library functions the file relies on (`errors.As`,
  `path/filepath`, `encoding/json`) are modelled after their Go implementation for
  Unix-like systems.
-/

namespace SshKeys

/-! ## Errors -/

/-- Modelled from the spec: one entry of `api.HTTPError.Errors`, a (field, message)
sub-error.  The type is declared in package `api`. -/
structure HTTPErrorItem where
  Field : String
  Message : String
deriving DecidableEq, Repr

/-- Modelled from the spec: `api.HTTPError`, the structured API error: a status code
and the ordered list of sub-errors.  The type is declared in package `api`; only the
two fields `ssh_keys.go` reads are kept. -/
structure HTTPError where
  StatusCode : Int
  Errors : List HTTPErrorItem
deriving DecidableEq, Repr

/-- Go `error` values that are not `nil`: an opaque error with a message, a
structured API error, or an error wrapping another one (`fmt.Errorf("...%w", err)`). -/
inductive GoError
  | plain (msg : String)
  | http (e : HTTPError)
  | wrapped (msg : String) (inner : GoError)
deriving DecidableEq, Repr

/-- The chain walk of `errors.As` with a target of type `api.HTTPError`: the first
structured API error among the error and the errors it wraps. -/
def firstHTTPError : GoError → Option HTTPError
  | .plain _ => none
  | .http e => some e
  | .wrapped _ inner => firstHTTPError inner

/-- The call `errors.As(err, &httpError)` with `httpError` of type `api.HTTPError`;
`none` when it reports false, which it does for a nil error. -/
def errorsAs : Option GoError → Option HTTPError
  | none => none
  | some err => firstHTTPError err

/-- Source lines 150-153. -/
def isDuplicateError (err : HTTPError) : Bool :=
  err.StatusCode == 422 && err.Errors.length == 1 &&
    (match err.Errors with
     | e0 :: _ => e0.Field == "key" && e0.Message == "key is already in use"
     | [] => false)

/-! ## Paths (`path/filepath`, Unix) -/

/-- Splits a path into its `/`-separated elements. -/
def splitSep : List Char → List (List Char)
  | [] => [[]]
  | c :: cs =>
    match splitSep cs with
    | [] => [[c]]
    | e :: es => if c = '/' then [] :: e :: es else (c :: e) :: es

/-- One step of `filepath.Clean` on the stack of elements kept so far (innermost
first): empty and `.` elements are dropped, `..` removes the last real element, is
kept when the path is not rooted and nothing can be removed, and is dropped at the
root. -/
def cleanStep (rooted : Bool) (stack : List (List Char)) (elem : List Char) :
    List (List Char) :=
  if elem = [] ∨ elem = ['.'] then stack
  else if elem = ['.', '.'] then
    match stack with
    | top :: below => if top = ['.', '.'] then elem :: stack else below
    | [] => if rooted then [] else [elem]
  else elem :: stack

/-- `filepath.Clean`. -/
def filepathClean (path : String) : String :=
  match path.toList with
  | [] => "."
  | c :: cs =>
    let rooted := c = '/'
    let kept := ((splitSep (c :: cs)).foldl (cleanStep rooted) []).reverse
    let body := List.intercalate ['/'] kept
    if rooted then String.mk ('/' :: body)
    else if body = [] then "." else String.mk body

/-- `filepath.Join`: the elements from the first non-empty one on, joined with the
separator and cleaned; the empty string when every element is empty. -/
def filepathJoin : List String → String
  | [] => ""
  | e :: es =>
    if e = "" then filepathJoin es
    else filepathClean (String.intercalate "/" (e :: es))

/-- `filepath.Split`: cuts after the last separator. -/
def splitLastSep : List Char → List Char × List Char
  | [] => ([], [])
  | c :: cs =>
    match splitLastSep cs with
    | ([], file) => if c = '/' then ([c], file) else ([], c :: file)
    | (dir, file) => (c :: dir, file)

/-- `filepath.Dir`. -/
def filepathDir (path : String) : String :=
  filepathClean (String.mk (splitLastSep path.toList).1)

/-! ## Environment and state -/

/-- An HTTP request as built by `http.NewRequest`. -/
structure Request where
  Method : String
  URL : String
  Body : List Nat
deriving DecidableEq, Repr

/-- An HTTP response: the status code the code branches on, and the body. -/
structure Response where
  StatusCode : Int
  Body : List Nat
deriving DecidableEq, Repr

/-- Resources that stay open until they are closed. -/
inductive Handle
  | file (name : String)
  | body (resp : Response)
deriving DecidableEq, Repr

/-- The observable effects of the functions of the file. -/
inductive Event
  | lookPath (file : String)
  | stat (name : String)
  | confirm (message : String) (dflt : Bool)
  | homeDirPath (elem : String)
  | mkdirAll (path : String) (perm : Nat)
  | password (message : String)
  | run (name : String) (args : List String)
  | openFile (name : String)
  | readAll (name : String)
  | send (req : Request)
  | handleHTTPError (resp : Response)
  | copyDiscard (resp : Response)
  | close (h : Handle)
deriving DecidableEq, Repr

/-- Everything outside the file the functions call into. -/
structure Env where
  /-- The value of `runtime.GOOS`. -/
  goos : String
  /-- The call `safeexec.LookPath(file)`. -/
  lookPath : String → Except GoError String
  /-- The error of `os.Stat(name)`; `none` when the file is found. -/
  stat : String → Option GoError
  /-- The call `prompt.SurveyAskOne(&survey.Confirm{Message, Default}, &answer)`. -/
  confirm : String → Bool → Except GoError Bool
  /-- The call `prompt.SurveyAskOne(&survey.Password{Message}, &answer)`. -/
  password : String → Except GoError String
  /-- The call `config.HomeDirPath(elem)`. -/
  homeDirPath : String → Except GoError String
  /-- The call `os.MkdirAll(path, perm)`. -/
  mkdirAll : String → Nat → Option GoError
  /-- The call `run.PrepareCmd(exec.Command(name, args...)).Run()`. -/
  run : String → List String → Option GoError
  /-- The error of `os.Lstat(name)`; `none` when the file is found. -/
  lstat : String → Option GoError
  /-- The names in a directory, as `Readdirnames` returns them; `none` when the
  path is not a directory that can be opened. -/
  readDir : String → Option (List String)
  /-- The value of `ghinstance.RESTPrefix(ghinstance.OverridableDefault())`. -/
  restPrefixURL : String
  /-- The call `os.Open(name)`. -/
  osOpen : String → Option GoError
  /-- The call `ioutil.ReadAll(f)` on the opened file `name`. -/
  readAll : String → Except GoError (List Nat)
  /-- The error `http.NewRequest` reports for a URL, `none` when it parses. -/
  urlError : String → Option GoError
  /-- The call `httpClient.Do(req)`. -/
  httpDo : Request → Except GoError Response
  /-- The call `api.HandleHTTPError(resp)`. -/
  handleHTTPError : Response → Option GoError
  /-- The error of `io.Copy(ioutil.Discard, resp.Body)`. -/
  copyDiscard : Response → Option GoError

/-- The state threaded through a run: the effects so far, oldest first, and the
handles that are open. -/
structure Sys where
  log : List Event
  openHandles : List Handle
deriving DecidableEq, Repr

/-- The state before anything happened. -/
def Sys.init : Sys := ⟨[], []⟩

/-- Records an effect. -/
def Sys.emit (s : Sys) (e : Event) : Sys := { s with log := s.log ++ [e] }

/-- Records that a handle was opened. -/
def Sys.acquire (s : Sys) (h : Handle) : Sys := { s with openHandles := h :: s.openHandles }

/-- Closes a handle. -/
def Sys.release (s : Sys) (h : Handle) : Sys :=
  { log := s.log ++ [Event.close h], openHandles := s.openHandles.erase h }

/-! ## Key generation -/

/-- Source lines 34-46. -/
def findKeygen (env : Env) (s : Sys) : Except GoError String × Sys :=
  let s := s.emit (.lookPath "ssh-keygen")
  match env.lookPath "ssh-keygen" with
  | .ok keygenExe => (.ok keygenExe, s)
  | .error err =>
    if env.goos = "windows" then
      let s := s.emit (.lookPath "git")
      match env.lookPath "git" with
      | .ok gitPath =>
        let gitKeygen := filepathJoin [filepathDir gitPath, "..", "usr", "bin", "ssh-keygen.exe"]
        let s := s.emit (.stat gitKeygen)
        match env.stat gitKeygen with
        | none => (.ok gitKeygen, s)
        | some _ => (.error err, s)
      | .error _ => (.error err, s)
    else (.error err, s)

/-- The permission bits `generateSSHKey` passes to `os.MkdirAll` (source line 76). -/
def sshDirPerm : Nat := 0o711

/-- Source lines 48-98. -/
def generateSSHKey (env : Env) (s : Sys) : (String × Option GoError) × Sys :=
  match findKeygen env s with
  | (.error _, s) => (("", none), s)
  | (.ok keygenExe, s) =>
    let question := "Generate a new SSH key to add to your GitHub account?"
    let s := s.emit (.confirm question true)
    match env.confirm question true with
    | .error err => (("", some (.wrapped "could not prompt: " err)), s)
    | .ok sshChoice =>
      if !sshChoice then (("", none), s)
      else
        let s := s.emit (.homeDirPath ".ssh")
        match env.homeDirPath ".ssh" with
        | .error err => (("", some err), s)
        | .ok sshDir =>
          let keyFile := filepathJoin [sshDir, "id_ed25519"]
          let s := s.emit (.stat keyFile)
          match env.stat keyFile with
          | none => (("", some (.plain ("refusing to overwrite file " ++ keyFile))), s)
          | some _ =>
            let s := s.emit (.mkdirAll (filepathDir keyFile) sshDirPerm)
            match env.mkdirAll (filepathDir keyFile) sshDirPerm with
            | some err => (("", some err), s)
            | none =>
              let sshLabel := ""
              let ask := "Enter the passphrase for your new SSH key"
              let s := s.emit (.password ask)
              match env.password ask with
              | .error err => (("", some (.wrapped "could not prompt: " err)), s)
              | .ok sshPassphrase =>
                let args := ["-t", "ed25519", "-C", sshLabel, "-N", sshPassphrase, "-f", keyFile]
                let s := s.emit (.run keygenExe args)
                ((keyFile ++ ".pub", env.run keygenExe args), s)

/-! ## JSON encoding (`encoding/json`) and UTF-8 (`unicode/utf8`) -/

/-- The rune `utf8.RuneError`, U+FFFD. -/
def runeError : Nat := 0xFFFD

/-- A continuation byte, `0x80..0xBF`. -/
def isCont (b : Nat) : Bool := 0x80 ≤ b && b ≤ 0xBF

/-- The range `unicode/utf8` accepts for the second byte after the leading byte `b0`
(its `acceptRanges` table). -/
def secondByteRange (b0 : Nat) : Nat × Nat :=
  if b0 = 0xE0 then (0xA0, 0xBF)
  else if b0 = 0xED then (0x80, 0x9F)
  else if b0 = 0xF0 then (0x90, 0xBF)
  else if b0 = 0xF4 then (0x80, 0x8F)
  else (0x80, 0xBF)

/-- `utf8.DecodeRuneInString`: the first rune of the byte string and its width;
`(runeError, 1)` when the string does not start with a well-formed encoding,
`(runeError, 0)` when it is empty.  Masks and shifts are written with `%` and `*`. -/
def decodeRune : List Nat → Nat × Nat
  | [] => (runeError, 0)
  | b0 :: rest =>
    if b0 < 0x80 then (b0, 1)
    else if b0 < 0xC2 then (runeError, 1)
    else if b0 ≤ 0xDF then
      match rest with
      | b1 :: _ =>
        if isCont b1 then (b0 % 0x20 * 0x40 + b1 % 0x40, 2) else (runeError, 1)
      | [] => (runeError, 1)
    else if b0 ≤ 0xEF then
      match rest with
      | b1 :: b2 :: _ =>
        if (secondByteRange b0).1 ≤ b1 ∧ b1 ≤ (secondByteRange b0).2 ∧ isCont b2 then
          (b0 % 0x10 * 0x1000 + b1 % 0x40 * 0x40 + b2 % 0x40, 3)
        else (runeError, 1)
      | _ => (runeError, 1)
    else if b0 ≤ 0xF4 then
      match rest with
      | b1 :: b2 :: b3 :: _ =>
        if (secondByteRange b0).1 ≤ b1 ∧ b1 ≤ (secondByteRange b0).2 ∧ isCont b2 ∧ isCont b3 then
          (b0 % 0x08 * 0x40000 + b1 % 0x40 * 0x1000 + b2 % 0x40 * 0x40 + b3 % 0x40, 4)
        else (runeError, 1)
      | _ => (runeError, 1)
    else (runeError, 1)

/-- `utf8.Valid`: the byte string is a sequence of well-formed encodings. -/
def validUTF8 : Nat → List Nat → Bool
  | _, [] => true
  | 0, _ :: _ => false
  | fuel + 1, b :: rest =>
    let r := decodeRune (b :: rest)
    if r.1 = runeError ∧ r.2 = 1 then false else validUTF8 fuel ((b :: rest).drop r.2)

/-- The bytes of an ASCII string literal. -/
def ascii (s : String) : List Nat := s.toList.map Char.toNat

/-- The table `hex` of `encoding/json`: the digit for a value below 16. -/
def hexDigit (n : Nat) : Nat := if n < 10 then 0x30 + n else 0x61 + (n - 10)

/-- The table `htmlSafeSet` of `encoding/json`: the ASCII bytes that are written
without an escape. -/
def htmlSafe (b : Nat) : Bool :=
  0x20 ≤ b && b < 0x80 && b != 0x22 && b != 0x26 && b != 0x3C && b != 0x3E && b != 0x5C

/-- The escape `encodeState.string` writes for an ASCII byte outside `htmlSafeSet`. -/
def escapeByte (b : Nat) : List Nat :=
  if b = 0x5C ∨ b = 0x22 then [0x5C, b]
  else if b = 0x0A then ascii "\\n"
  else if b = 0x0D then ascii "\\r"
  else if b = 0x09 then ascii "\\t"
  else ascii "\\u00" ++ [hexDigit (b / 16), hexDigit (b % 16)]

/-- The loop of `encodeState.string` (with `escapeHTML` set, as `json.Marshal` does):
one iteration per ASCII byte or rune. -/
def quoteLoop : Nat → List Nat → List Nat
  | 0, _ => []
  | _ + 1, [] => []
  | fuel + 1, b :: rest =>
    if b < 0x80 then
      (if htmlSafe b then [b] else escapeByte b) ++ quoteLoop fuel rest
    else
      let r := decodeRune (b :: rest)
      if r.1 = runeError ∧ r.2 = 1 then ascii "\\ufffd" ++ quoteLoop fuel rest
      else if r.1 = 0x2028 ∨ r.1 = 0x2029 then
        ascii "\\u202" ++ [hexDigit (r.1 % 16)] ++ quoteLoop fuel ((b :: rest).drop r.2)
      else (b :: rest).take r.2 ++ quoteLoop fuel ((b :: rest).drop r.2)

/-- `encodeState.string`: a Go string as a JSON string literal. -/
def jsonQuote (s : List Nat) : List Nat := [0x22] ++ quoteLoop s.length s ++ [0x22]

/-- Go string comparison `a < b`: lexicographic on bytes. -/
def bytesLt : List Nat → List Nat → Bool
  | _, [] => false
  | [], _ :: _ => true
  | a :: as, b :: bs => a < b || (a == b && bytesLt as bs)

/-- Inserts a map entry into a list of entries sorted by key. -/
def insertEntry (kv : List Nat × List Nat) :
    List (List Nat × List Nat) → List (List Nat × List Nat)
  | [] => [kv]
  | e :: es => if bytesLt kv.1 e.1 then kv :: e :: es else e :: insertEntry kv es

/-- The members of a JSON object, comma-separated. -/
def encodeMembers : List (List Nat × List Nat) → List Nat
  | [] => []
  | [kv] => jsonQuote kv.1 ++ [0x3A] ++ jsonQuote kv.2
  | kv :: e :: es => jsonQuote kv.1 ++ [0x3A] ++ jsonQuote kv.2 ++ [0x2C] ++ encodeMembers (e :: es)

/-- `json.Marshal` on a non-nil `map[string]string`, given by its entries (distinct
keys): an object whose members are sorted by key.  It reports no error. -/
def jsonMarshal (m : List (List Nat × List Nat)) : Except GoError (List Nat) :=
  .ok ([0x7B] ++ encodeMembers (m.foldr insertEntry []) ++ [0x7D])

/-- The request `sshKeyUpload` builds for a key file with the given content. -/
def uploadRequest (env : Env) (keyBytes : List Nat) : Request :=
  { Method := "POST"
    URL := env.restPrefixURL ++ "user/keys"
    Body := [0x7B] ++ encodeMembers
      ([(ascii "title", ascii "GitHub CLI"), (ascii "key", keyBytes)].foldr insertEntry []) ++ [0x7D] }

/-! ## Key upload -/

/-- `http.NewRequest(method, url, body)` for a valid method: fails when the URL does
not parse. -/
def newRequest (env : Env) (method url : String) (body : List Nat) : Except GoError Request :=
  match env.urlError url with
  | some err => .error err
  | none => .ok { Method := method, URL := url, Body := body }

/-- Source lines 133-147, the part of `sshKeyUpload` that runs between the
`defer resp.Body.Close()` and the deferred call. -/
def handleResponse (env : Env) (resp : Response) (s : Sys) : Option GoError × Sys :=
  if resp.StatusCode > 299 then
    let s := s.emit (.handleHTTPError resp)
    let err := env.handleHTTPError resp
    match errorsAs err with
    | some httpError => if isDuplicateError httpError then (none, s) else (err, s)
    | none => (err, s)
  else
    let s := s.emit (.copyDiscard resp)
    match env.copyDiscard resp with
    | some err => (some err, s)
    | none => (none, s)

/-- Source lines 100-148. -/
def sshKeyUpload (env : Env) (keyFile : String) (s : Sys) : Option GoError × Sys :=
  let url := env.restPrefixURL ++ "user/keys"
  let s := s.emit (.openFile keyFile)
  match env.osOpen keyFile with
  | some err => (some err, s)
  | none =>
    let s := s.acquire (.file keyFile)
    let s := s.emit (.readAll keyFile)
    match env.readAll keyFile with
    | .error err => (some err, s)
    | .ok keyBytes =>
      let payload := [(ascii "title", ascii "GitHub CLI"), (ascii "key", keyBytes)]
      match jsonMarshal payload with
      | .error err => (some err, s)
      | .ok payloadBytes =>
        match newRequest env "POST" url payloadBytes with
        | .error err => (some err, s)
        | .ok req =>
          let s := s.emit (.send req)
          match env.httpDo req with
          | .error err => (some err, s)
          | .ok resp =>
            let s := s.acquire (.body resp)
            let (err, s) := handleResponse env resp s
            (err, s.release (.body resp))

/-! ## Pattern matching (`filepath.Match`, `filepath.Glob`, Unix)

After the implementation of Go 1.16 and later: `Glob` first checks that the pattern
is well formed, and a match that has failed still reads the rest of the pattern.
Names and patterns are sequences of characters (well-formed UTF-8). -/

/-- The error `filepath.ErrBadPattern`. -/
def errBadPattern : GoError := .plain "syntax error in pattern"

/-- The scanning loop of `scanChunk`: the pattern up to the next `*` outside a
character class, and what follows. -/
def scanLoop : List Char → Bool → List Char × List Char
  | [], _ => ([], [])
  | c :: rest, inrange =>
    if c = '\\' then
      match rest with
      | [] => ([c], [])
      | c1 :: rest1 => let r := scanLoop rest1 inrange; (c :: c1 :: r.1, r.2)
    else if c = '[' then let r := scanLoop rest true; (c :: r.1, r.2)
    else if c = ']' then let r := scanLoop rest false; (c :: r.1, r.2)
    else if c = '*' ∧ !inrange then ([], c :: rest)
    else let r := scanLoop rest inrange; (c :: r.1, r.2)

/-- `scanChunk`: whether the pattern starts with stars, the chunk after them, and
the remaining pattern. -/
def scanChunk (pattern : List Char) : Bool × List Char × List Char :=
  let star := pattern.head? = some '*'
  let r := scanLoop (pattern.dropWhile (fun c => c = '*')) false
  (star, r.1, r.2)

/-- `getEsc`: one possibly escaped character of a character class; `none` is
`ErrBadPattern`. -/
def getEsc (chunk : List Char) : Option (Char × List Char) :=
  match chunk with
  | [] => none
  | c :: rest =>
    if c = '-' ∨ c = ']' then none
    else if c = '\\' then
      match rest with
      | [] => none
      | r :: nchunk => if nchunk = [] then none else some (r, nchunk)
    else if rest = [] then none else some (c, rest)

/-- The range-parsing loop of `matchChunk`, entered after `[` and an optional `^`:
whether one of the ranges contains `r`, and the chunk after the closing `]`;
`none` is `ErrBadPattern`. -/
def parseClass (r : Char) : Nat → List Char → Bool → Bool → Option (Bool × List Char)
  | 0, _, _, _ => none
  | fuel + 1, chunk, found, seen =>
    if chunk.head? = some ']' ∧ seen then some (found, chunk.tail)
    else
      match getEsc chunk with
      | none => none
      | some (lo, chunk1) =>
        if chunk1.head? = some '-' then
          match getEsc chunk1.tail with
          | none => none
          | some (hi, chunk2) =>
            parseClass r fuel chunk2
              (found || (decide (lo.toNat ≤ r.toNat) && decide (r.toNat ≤ hi.toNat))) true
        else
          parseClass r fuel chunk1
            (found || (decide (lo.toNat ≤ r.toNat) && decide (r.toNat ≤ lo.toNat))) true

/-- The outcome of `matchChunk`: `ErrBadPattern`, no match, or a match that leaves
the rest of the name. -/
inductive ChunkResult
  | bad
  | fail
  | rest (s : List Char)
deriving DecidableEq, Repr

/-- `matchChunk`: matches a star-free chunk at the start of `s`; after the match
has failed the chunk is still checked for being well formed. -/
def matchChunk : Nat → List Char → List Char → Bool → ChunkResult
  | _, [], s, failed => if failed then .fail else .rest s
  | 0, _ :: _, _, _ => .bad
  | fuel + 1, c :: chunk, s, failed0 =>
    let failed := failed0 || s.isEmpty
    let s1 := if failed then s else s.tail
    if c = '[' then
      let r := if failed then Char.ofNat 0 else s.headD (Char.ofNat 0)
      let negated := decide (chunk.head? = some '^')
      let chunk1 := if negated then chunk.tail else chunk
      match parseClass r (chunk1.length + 1) chunk1 false false with
      | none => .bad
      | some (found, chunk2) => matchChunk fuel chunk2 s1 (failed || (found == negated))
    else if c = '?' then
      matchChunk fuel chunk s1 (failed || decide (s.head? = some '/'))
    else if c = '\\' then
      match chunk with
      | [] => .bad
      | c1 :: chunk1 => matchChunk fuel chunk1 s1 (failed || decide (s.head? ≠ some c1))
    else matchChunk fuel chunk s1 (failed || decide (s.head? ≠ some c))

/-- The inner loop of `Match` after a star: tries the chunk after skipping one more
character of the name each time, never skipping a separator. -/
def starSearch (chunk : List Char) (last : Bool) : List Char → ChunkResult
  | [] => .fail
  | c :: name =>
    if c = '/' then .fail
    else
      match matchChunk chunk.length chunk name false with
      | .rest t => if last ∧ t ≠ [] then starSearch chunk last name else .rest t
      | .bad => .bad
      | .fail => starSearch chunk last name

/-- The final loop of `Match`: whether the rest of the pattern is well formed. -/
def patternRestBad : Nat → List Char → Bool
  | 0, _ => false
  | fuel + 1, pattern =>
    if pattern = [] then false
    else
      let sc := scanChunk pattern
      if matchChunk sc.2.1.length sc.2.1 [] false = .bad then true
      else patternRestBad fuel sc.2.2

/-- The main loop of `filepath.Match`. -/
def matchLoop : Nat → List Char → List Char → Except GoError Bool
  | 0, _, name => .ok name.isEmpty
  | fuel + 1, pattern, name =>
    if pattern = [] then .ok name.isEmpty
    else
      let sc := scanChunk pattern
      let star := sc.1
      let chunk := sc.2.1
      let pattern1 := sc.2.2
      if star ∧ chunk = [] then .ok (!name.contains '/')
      else
        let giveUp : Except GoError Bool :=
          if patternRestBad pattern1.length pattern1 then .error errBadPattern else .ok false
        let afterStar : Except GoError Bool :=
          if star then
            match starSearch chunk (decide (pattern1 = [])) name with
            | .rest t => matchLoop fuel pattern1 t
            | .bad => .error errBadPattern
            | .fail => giveUp
          else giveUp
        match matchChunk chunk.length chunk name false with
        | .rest t => if t = [] ∨ pattern1 ≠ [] then matchLoop fuel pattern1 t else afterStar
        | .bad => .error errBadPattern
        | .fail => afterStar

/-- `filepath.Match`. -/
def filepathMatch (pattern name : String) : Except GoError Bool :=
  matchLoop pattern.length pattern.toList name.toList

/-- `hasMeta`. -/
def hasMeta (path : String) : Bool :=
  path.toList.any (fun c => c = '*' ∨ c = '?' ∨ c = '[' ∨ c = '\\')

/-- `cleanGlobPath`. -/
def cleanGlobPath (path : String) : String :=
  if path = "" then "." else if path = "/" then path else String.mk path.toList.dropLast

/-- Go string comparison `a < b` on names. -/
def nameLt : List Char → List Char → Bool
  | _, [] => false
  | [], _ :: _ => true
  | a :: as, b :: bs => a.toNat < b.toNat || (a == b && nameLt as bs)

/-- Inserts a name into a sorted list of names (`sort.Strings`). -/
def insertName (n : String) : List String → List String
  | [] => [n]
  | m :: ms => if nameLt n.toList m.toList then n :: m :: ms else m :: insertName n ms

/-- The loop of the helper `glob` over the sorted names of a directory. -/
def globNames (dir pattern : String) : List String → List String → List String × Option GoError
  | [], acc => (acc, none)
  | n :: names, acc =>
    match filepathMatch pattern n with
    | .error err => (acc, some err)
    | .ok matched =>
      globNames dir pattern names (if matched then acc ++ [filepathJoin [dir, n]] else acc)

/-- The helper `glob`: appends to `matches` the entries of `dir` that match the
pattern; a directory that cannot be read contributes nothing. -/
def globDir (env : Env) (dir pattern : String) (acc : List String) :
    List String × Option GoError :=
  match env.readDir dir with
  | none => (acc, none)
  | some names => globNames dir pattern (names.foldr insertName []) acc

/-- The loop of `Glob` over the directories that match the directory part. -/
def globEach (env : Env) (file : String) : List String → List String → List String × Option GoError
  | [], acc => (acc, none)
  | d :: ds, acc =>
    match globDir env d file acc with
    | (acc1, none) => globEach env file ds acc1
    | (acc1, some err) => (acc1, some err)

/-- `filepath.Glob`; the recursion is on the directory part of the pattern. -/
def globLoop (env : Env) : Nat → String → List String × Option GoError
  | 0, _ => ([], some errBadPattern)
  | fuel + 1, pattern =>
    match filepathMatch pattern "" with
    | .error err => ([], some err)
    | .ok _ =>
      if !hasMeta pattern then
        match env.lstat pattern with
        | some _ => ([], none)
        | none => ([pattern], none)
      else
        let sp := splitLastSep pattern.toList
        let dir := cleanGlobPath (String.mk sp.1)
        let file := String.mk sp.2
        if !hasMeta dir then globDir env dir file []
        else if dir = pattern then ([], some errBadPattern)
        else
          match globLoop env fuel dir with
          | (m, none) => globEach env file m []
          | (m, some err) => (m, some err)

/-- `filepath.Glob`. -/
def filepathGlob (env : Env) (pattern : String) : List String × Option GoError :=
  globLoop env (pattern.length + 1) pattern

/-! ## Key discovery -/

/-- Source lines 25-32. -/
def localPublicKeys (env : Env) : List String × Option GoError :=
  match env.homeDirPath ".ssh" with
  | .error err => ([], some err)
  | .ok sshDir => filepathGlob env (filepathJoin [sshDir, "*.pub"])

/-! ## Reading JSON back

The reader the claims about the request body are checked against: it reads a JSON
object whose members are strings, as a server decoding the request would. -/

/-- The value of a hexadecimal digit. -/
def hexValue (c : Nat) : Option Nat :=
  if 0x30 ≤ c ∧ c ≤ 0x39 then some (c - 0x30)
  else if 0x61 ≤ c ∧ c ≤ 0x66 then some (c - 0x61 + 10)
  else if 0x41 ≤ c ∧ c ≤ 0x46 then some (c - 0x41 + 10)
  else none

/-- The value of four hexadecimal digits at the start of the input, and the rest. -/
def readHex4 : List Nat → Option (Nat × List Nat)
  | h1 :: h2 :: h3 :: h4 :: rest =>
    match hexValue h1, hexValue h2, hexValue h3, hexValue h4 with
    | some a, some b, some c, some d => some (((a * 16 + b) * 16 + c) * 16 + d, rest)
    | _, _, _, _ => none
  | _ => none

/-- `utf8.EncodeRune`: the UTF-8 encoding of a rune; surrogates and values beyond
U+10FFFF are written as U+FFFD. -/
def encodeRune (r : Nat) : List Nat :=
  if r < 0x80 then [r]
  else if r < 0x800 then [0xC0 + r / 0x40, 0x80 + r % 0x40]
  else if (0xD800 ≤ r ∧ r ≤ 0xDFFF) ∨ 0x10FFFF < r then [0xEF, 0xBF, 0xBD]
  else if r < 0x10000 then [0xE0 + r / 0x1000, 0x80 + r / 0x40 % 0x40, 0x80 + r % 0x40]
  else [0xF0 + r / 0x40000, 0x80 + r / 0x1000 % 0x40, 0x80 + r / 0x40 % 0x40, 0x80 + r % 0x40]

/-- The character a two-character escape stands for. -/
def simpleEscape (e : Nat) : Option Nat :=
  if e = 0x22 ∨ e = 0x5C ∨ e = 0x2F then some e
  else if e = 0x62 then some 0x08
  else if e = 0x66 then some 0x0C
  else if e = 0x6E then some 0x0A
  else if e = 0x72 then some 0x0D
  else if e = 0x74 then some 0x09
  else none

/-- Puts decoded bytes in front of the result of reading the rest. -/
def andThen (pre : List Nat) (r : Option (List Nat × List Nat)) : Option (List Nat × List Nat) :=
  r.map (fun p => (pre ++ p.1, p.2))

/-- Reads a JSON string after its opening quote, up to and including the closing
quote: the string it denotes and the input that follows.  A `\u` escape denotes a
UTF-16 unit, a high and a low surrogate escape together one rune; bytes outside
ASCII are taken as they are. -/
def unquoteLoop : Nat → List Nat → Option (List Nat × List Nat)
  | 0, _ => none
  | _ + 1, [] => none
  | fuel + 1, c :: rest =>
    if c = 0x22 then some ([], rest)
    else if c = 0x5C then
      match rest with
      | [] => none
      | e :: rest1 =>
        if e = 0x75 then
          match readHex4 rest1 with
          | none => none
          | some (u, rest2) =>
            if 0xD800 ≤ u ∧ u < 0xDC00 then
              match rest2 with
              | 0x5C :: 0x75 :: rest3 =>
                match readHex4 rest3 with
                | some (v, rest4) =>
                  if 0xDC00 ≤ v ∧ v < 0xE000 then
                    andThen (encodeRune (0x10000 + (u - 0xD800) * 0x400 + (v - 0xDC00)))
                      (unquoteLoop fuel rest4)
                  else andThen (encodeRune u) (unquoteLoop fuel rest2)
                | none => andThen (encodeRune u) (unquoteLoop fuel rest2)
              | _ => andThen (encodeRune u) (unquoteLoop fuel rest2)
            else andThen (encodeRune u) (unquoteLoop fuel rest2)
        else
          match simpleEscape e with
          | some b => andThen [b] (unquoteLoop fuel rest1)
          | none => none
    else if c < 0x20 then none
    else andThen [c] (unquoteLoop fuel rest)

/-- Skips JSON white space. -/
def skipSpace : List Nat → List Nat
  | [] => []
  | c :: rest => if c = 0x20 ∨ c = 0x09 ∨ c = 0x0A ∨ c = 0x0D then skipSpace rest else c :: rest

/-- Reads a JSON string: the string it denotes and the input that follows. -/
def readString (input : List Nat) : Option (List Nat × List Nat) :=
  match skipSpace input with
  | 0x22 :: rest => unquoteLoop (rest.length + 1) rest
  | _ => none

/-- Reads the members of an object after its opening brace, up to and including
the closing brace. -/
def readMembers : Nat → List Nat → Option (List (List Nat × List Nat) × List Nat)
  | 0, _ => none
  | fuel + 1, input =>
    match readString input with
    | none => none
    | some (k, rest) =>
      match skipSpace rest with
      | 0x3A :: rest1 =>
        match readString rest1 with
        | none => none
        | some (v, rest2) =>
          match skipSpace rest2 with
          | 0x7D :: rest3 => some ([(k, v)], rest3)
          | 0x2C :: rest3 =>
            (readMembers fuel rest3).map (fun p => ((k, v) :: p.1, p.2))
          | _ => none
      | _ => none

/-- Reads a JSON document that is an object with string members: its members in
the order of the document. -/
def jsonDecodeObject (input : List Nat) : Option (List (List Nat × List Nat)) :=
  match skipSpace input with
  | 0x7B :: rest =>
    match skipSpace rest with
    | 0x7D :: rest1 => if skipSpace rest1 = [] then some [] else none
    | _ =>
      match readMembers rest.length rest with
      | some (members, rest1) => if skipSpace rest1 = [] then some members else none
      | none => none
  | _ => none

/-- The member of the given name in a decoded object. -/
def member (name : List Nat) : List (List Nat × List Nat) → Option (List Nat)
  | [] => none
  | kv :: more => if kv.1 = name then some kv.2 else member name more

/-- Whether a byte string is well-formed UTF-8. -/
def isValidUTF8 (s : List Nat) : Bool := validUTF8 s.length s

/-! ## Vocabulary of the claims -/

/-- The confirmation question of `generateSSHKey`. -/
def confirmMessage : String := "Generate a new SSH key to add to your GitHub account?"

/-- The passphrase question of `generateSSHKey`. -/
def passphraseMessage : String := "Enter the passphrase for your new SSH key"

/-- The canonical destination of a generated private key. -/
def keyPath (sshDir : String) : String := filepathJoin [sshDir, "id_ed25519"]

/-- The argument list of the key generator for a passphrase and a destination. -/
def keygenArgs (passphrase keyFile : String) : List String :=
  ["-t", "ed25519", "-C", "", "-N", passphrase, "-f", keyFile]

/-- Interactive prompts. -/
def Event.isPrompt : Event → Bool
  | .confirm _ _ => true
  | .password _ => true
  | _ => false

/-- The passphrase prompt. -/
def Event.isPassword : Event → Bool
  | .password _ => true
  | _ => false

/-- Effects that write to the file system. -/
def Event.isWrite : Event → Bool
  | .mkdirAll _ _ => true
  | _ => false

/-- Process launches. -/
def Event.isRun : Event → Bool
  | .run _ _ => true
  | _ => false

/-- Requests handed to the HTTP client. -/
def Event.isSend : Event → Bool
  | .send _ => true
  | _ => false

/-- The look-ups `findKeygen` itself makes while searching for the tool. -/
def Event.isLookup : Event → Bool
  | .lookPath _ => true
  | .stat _ => true
  | _ => false

/-- The effects a run of `findKeygen` performs. -/
def findKeygenEffects (env : Env) : List Event := (findKeygen env Sys.init).2.log

/-- The effects a run of `generateSSHKey` performs. -/
def generateEffects (env : Env) : List Event := (generateSSHKey env Sys.init).2.log

/-- A response is the duplicate-key conflict when the error parsed from it is a
structured API error of the duplicate shape. -/
def isDuplicateConflict (env : Env) (resp : Response) : Prop :=
  ∃ h, errorsAs (env.handleHTTPError resp) = some h ∧ isDuplicateError h = true

/-! ## Sample hosts -/

/-- A Unix host on which `ssh-keygen` is installed, the user consents and gives an
empty passphrase, no key exists yet, and the server registers an uploaded key. -/
def freshEnv : Env where
  goos := "linux"
  lookPath := fun file =>
    if file = "ssh-keygen" then .ok "/usr/bin/ssh-keygen"
    else .error (.plain "executable file not found in $PATH")
  stat := fun _ => some (.plain "no such file or directory")
  lstat := fun _ => some (.plain "no such file or directory")
  confirm := fun _ _ => .ok true
  password := fun _ => .ok ""
  homeDirPath := fun elem => .ok (filepathJoin ["/home/u", elem])
  mkdirAll := fun _ _ => none
  run := fun _ _ => none
  readDir := fun _ => none
  restPrefixURL := "https://api.github.com/"
  osOpen := fun _ => none
  readAll := fun _ => .ok (ascii "ssh-ed25519 AAAA\n")
  urlError := fun _ => none
  httpDo := fun _ => .ok ⟨201, []⟩
  handleHTTPError := fun resp => some (.http ⟨resp.StatusCode, []⟩)
  copyDiscard := fun _ => none

/-- The host of `freshEnv` with a private key already at the canonical destination. -/
def existingKeyEnv : Env :=
  { freshEnv with stat := fun name => if name = "/home/u/.ssh/id_ed25519" then none
                                      else some (.plain "no such file or directory") }

/-- The host of `freshEnv` without any key-generation tool. -/
def noKeygenEnv : Env :=
  { freshEnv with lookPath := fun _ => .error (.plain "executable file not found in $PATH") }

/-- The host of `freshEnv` against a server that answers `101 Switching Protocols`. -/
def switchingEnv : Env :=
  { freshEnv with httpDo := fun _ => .ok ⟨101, []⟩ }

/-- The host of `freshEnv` against a server on which the key is registered already:
it answers 422 with the single sub-error of the duplicate shape. -/
def duplicateEnv : Env :=
  { freshEnv with
    httpDo := fun _ => .ok ⟨422, []⟩
    handleHTTPError := fun resp =>
      some (.http ⟨resp.StatusCode, [⟨"key", "key is already in use"⟩]⟩) }

/-- The host of `freshEnv` against a server that answers `500`. -/
def failingEnv : Env :=
  { freshEnv with httpDo := fun _ => .ok ⟨500, []⟩ }

/-- The directory tree of a host with the users `u` and `a[`, each with a public key
in the SSH directory. -/
def sampleTree (dir : String) : Option (List String) :=
  if dir = "/" then some ["home"]
  else if dir = "/home" then some ["u", "a["]
  else if dir = "/home/u" ∨ dir = "/home/a[" then some [".ssh"]
  else if dir = "/home/u/.ssh" then some ["known_hosts", "id_rsa.pub", "id_rsa"]
  else if dir = "/home/a[/.ssh" then some ["id_ed25519", "id_ed25519.pub"]
  else none

/-- The host of `freshEnv` with the directory tree `sampleTree`, for the user `u`. -/
def plainHomeEnv : Env :=
  { freshEnv with readDir := sampleTree }

/-- The host of `freshEnv` with the directory tree `sampleTree`, for the user whose
home directory is `/home/a[`. -/
def bracketHomeEnv : Env :=
  { freshEnv with
    readDir := sampleTree
    homeDirPath := fun elem => .ok (filepathJoin ["/home/a[", elem]) }

/-- The host of `freshEnv` with a key file that holds the single byte `0xFF`. -/
def binaryKeyEnv : Env :=
  { freshEnv with readAll := fun _ => .ok [0xFF] }

/-! ## Lemmas -/

theorem findKeygen_state (env : Env) (s : Sys) :
    findKeygen env s =
      ((findKeygen env Sys.init).1, ⟨s.log ++ findKeygenEffects env, s.openHandles⟩) := by
  unfold findKeygenEffects findKeygen
  cases h1 : env.lookPath "ssh-keygen" with
  | ok exe => simp [Sys.emit, Sys.init]
  | error err =>
    by_cases hw : env.goos = "windows"
    · cases h2 : env.lookPath "git" with
      | error e2 => simp [Sys.emit, Sys.init, hw, h2]
      | ok gitPath =>
        cases h3 : env.stat
            (filepathJoin [filepathDir gitPath, "..", "usr", "bin", "ssh-keygen.exe"]) with
        | none => simp [Sys.emit, Sys.init, hw, h2, h3]
        | some e3 => simp [Sys.emit, Sys.init, hw, h2, h3]
    · simp [Sys.emit, Sys.init, hw]

theorem findKeygenEffects_lookup (env : Env) :
    ∀ e ∈ findKeygenEffects env, e.isLookup = true := by
  unfold findKeygenEffects findKeygen
  cases h1 : env.lookPath "ssh-keygen" with
  | ok exe => simp [Sys.emit, Sys.init, Event.isLookup]
  | error err =>
    by_cases hw : env.goos = "windows"
    · cases h2 : env.lookPath "git" with
      | error e2 => simp [Sys.emit, Sys.init, hw, h2, Event.isLookup]
      | ok gitPath =>
        cases h3 : env.stat
            (filepathJoin [filepathDir gitPath, "..", "usr", "bin", "ssh-keygen.exe"]) with
        | none => simp [Sys.emit, Sys.init, hw, h2, h3, Event.isLookup]
        | some e3 => simp [Sys.emit, Sys.init, hw, h2, h3, Event.isLookup]
    · simp [Sys.emit, Sys.init, hw, Event.isLookup]

theorem lookup_not_other (e : Event) (h : e.isLookup = true) :
    e.isPrompt = false ∧ e.isPassword = false ∧ e.isWrite = false ∧ e.isRun = false := by
  cases e <;>
    simp_all [Event.isLookup, Event.isPrompt, Event.isPassword, Event.isWrite, Event.isRun]

/-- What `generateSSHKey` does after `findKeygen` found the tool `keygenExe`, as a
function of the answers of the environment; used to read off runs. -/
theorem generateSSHKey_found (env : Env) (s : Sys) (keygenExe : String)
    (hfind : (findKeygen env Sys.init).1 = .ok keygenExe) :
    generateSSHKey env s =
      match env.confirm confirmMessage true with
      | .error err =>
        (("", some (.wrapped "could not prompt: " err)),
          ⟨s.log ++ findKeygenEffects env ++ [.confirm confirmMessage true], s.openHandles⟩)
      | .ok false =>
        (("", none),
          ⟨s.log ++ findKeygenEffects env ++ [.confirm confirmMessage true], s.openHandles⟩)
      | .ok true =>
        match env.homeDirPath ".ssh" with
        | .error err =>
          (("", some err),
            ⟨s.log ++ findKeygenEffects env ++
              [.confirm confirmMessage true, .homeDirPath ".ssh"], s.openHandles⟩)
        | .ok sshDir =>
          match env.stat (keyPath sshDir) with
          | none =>
            (("", some (.plain ("refusing to overwrite file " ++ keyPath sshDir))),
              ⟨s.log ++ findKeygenEffects env ++
                [.confirm confirmMessage true, .homeDirPath ".ssh", .stat (keyPath sshDir)],
                s.openHandles⟩)
          | some _ =>
            match env.mkdirAll (filepathDir (keyPath sshDir)) sshDirPerm with
            | some err =>
              (("", some err),
                ⟨s.log ++ findKeygenEffects env ++
                  [.confirm confirmMessage true, .homeDirPath ".ssh", .stat (keyPath sshDir),
                    .mkdirAll (filepathDir (keyPath sshDir)) sshDirPerm], s.openHandles⟩)
            | none =>
              match env.password passphraseMessage with
              | .error err =>
                (("", some (.wrapped "could not prompt: " err)),
                  ⟨s.log ++ findKeygenEffects env ++
                    [.confirm confirmMessage true, .homeDirPath ".ssh", .stat (keyPath sshDir),
                      .mkdirAll (filepathDir (keyPath sshDir)) sshDirPerm,
                      .password passphraseMessage], s.openHandles⟩)
              | .ok pw =>
                ((keyPath sshDir ++ ".pub", env.run keygenExe (keygenArgs pw (keyPath sshDir))),
                  ⟨s.log ++ findKeygenEffects env ++
                    [.confirm confirmMessage true, .homeDirPath ".ssh", .stat (keyPath sshDir),
                      .mkdirAll (filepathDir (keyPath sshDir)) sshDirPerm,
                      .password passphraseMessage,
                      .run keygenExe (keygenArgs pw (keyPath sshDir))], s.openHandles⟩) := by
  unfold generateSSHKey
  rw [findKeygen_state env s, hfind]
  simp only [confirmMessage, passphraseMessage, keyPath, keygenArgs]
  cases env.confirm "Generate a new SSH key to add to your GitHub account?" true with
  | error err => simp [Sys.emit]
  | ok choice =>
    cases choice with
    | false => simp [Sys.emit]
    | true =>
      cases env.homeDirPath ".ssh" with
      | error err => simp [Sys.emit]
      | ok sshDir =>
        cases env.stat (filepathJoin [sshDir, "id_ed25519"]) with
        | none => simp [Sys.emit]
        | some e =>
          cases env.mkdirAll (filepathDir (filepathJoin [sshDir, "id_ed25519"])) sshDirPerm with
          | some e2 => simp [Sys.emit]
          | none =>
            cases env.password "Enter the passphrase for your new SSH key" with
            | error e3 => simp [Sys.emit]
            | ok pw => simp [Sys.emit]

/-- What `generateSSHKey` does when `findKeygen` fails. -/
theorem generateSSHKey_not_found (env : Env) (s : Sys) (err : GoError)
    (hfind : (findKeygen env Sys.init).1 = .error err) :
    generateSSHKey env s = (("", none), ⟨s.log ++ findKeygenEffects env, s.openHandles⟩) := by
  unfold generateSSHKey
  rw [findKeygen_state env s, hfind]

theorem handleResponse_openHandles (env : Env) (resp : Response) (s : Sys) :
    (handleResponse env resp s).2.openHandles = s.openHandles := by
  unfold handleResponse
  by_cases hs : resp.StatusCode > 299
  · simp only [hs, if_true]
    cases errorsAs (env.handleHTTPError resp) with
    | none => simp [Sys.emit]
    | some h => cases hd : isDuplicateError h <;> simp [Sys.emit, hd]
  · simp only [hs, if_false]
    cases env.copyDiscard resp <;> simp [Sys.emit]

theorem handleResponse_result (env : Env) (resp : Response) (s : Sys) :
    (handleResponse env resp s).1 =
      if resp.StatusCode > 299 then
        match errorsAs (env.handleHTTPError resp) with
        | some httpError =>
          if isDuplicateError httpError then none else env.handleHTTPError resp
        | none => env.handleHTTPError resp
      else env.copyDiscard resp := by
  unfold handleResponse
  split
  · split
    · split <;> simp_all
    · simp_all
  · split <;> simp_all

/-- What `sshKeyUpload` does once the key file is read and the request is built, as
a function of the answer of the HTTP client. -/
theorem sshKeyUpload_sent (env : Env) (keyFile : String) (s : Sys) (keyBytes : List Nat)
    (hopen : env.osOpen keyFile = none)
    (hread : env.readAll keyFile = .ok keyBytes)
    (hurl : env.urlError (env.restPrefixURL ++ "user/keys") = none) :
    sshKeyUpload env keyFile s =
      match env.httpDo (uploadRequest env keyBytes) with
      | .error err =>
        (some err,
          ⟨s.log ++ [.openFile keyFile, .readAll keyFile, .send (uploadRequest env keyBytes)],
            .file keyFile :: s.openHandles⟩)
      | .ok resp =>
        ((handleResponse env resp
            ⟨s.log ++ [.openFile keyFile, .readAll keyFile, .send (uploadRequest env keyBytes)],
              .body resp :: .file keyFile :: s.openHandles⟩).1,
          (handleResponse env resp
            ⟨s.log ++ [.openFile keyFile, .readAll keyFile, .send (uploadRequest env keyBytes)],
              .body resp :: .file keyFile :: s.openHandles⟩).2.release (.body resp)) := by
  unfold sshKeyUpload
  simp only [hopen, hread, jsonMarshal, newRequest, hurl, uploadRequest]
  cases env.httpDo _ with
  | error err => simp [Sys.emit, Sys.acquire]
  | ok resp => simp [Sys.emit, Sys.acquire]

/-- Once opened, the key file is among the open handles when `sshKeyUpload` returns,
on every path. -/
theorem sshKeyUpload_keeps_file_open (env : Env) (keyFile : String) (s : Sys)
    (hopen : env.osOpen keyFile = none) :
    Handle.file keyFile ∈ (sshKeyUpload env keyFile s).2.openHandles := by
  cases hread : env.readAll keyFile with
  | error err => simp [sshKeyUpload, hopen, hread, Sys.emit, Sys.acquire]
  | ok keyBytes =>
    cases hurl : env.urlError (env.restPrefixURL ++ "user/keys") with
    | some err =>
      simp [sshKeyUpload, hopen, hread, hurl, jsonMarshal, newRequest, Sys.emit, Sys.acquire]
    | none =>
      rw [sshKeyUpload_sent env keyFile s keyBytes hopen hread hurl]
      cases env.httpDo (uploadRequest env keyBytes) with
      | error err => simp
      | ok resp => simp [Sys.release, handleResponse_openHandles]

theorem handleResponse_log (env : Env) (resp : Response) (s : Sys) :
    (handleResponse env resp s).2.log =
      s.log ++ [if resp.StatusCode > 299 then .handleHTTPError resp else .copyDiscard resp] := by
  unfold handleResponse
  by_cases hs : resp.StatusCode > 299
  · simp only [hs, if_true]
    cases errorsAs (env.handleHTTPError resp) with
    | none => simp [Sys.emit]
    | some h => cases hd : isDuplicateError h <;> simp [Sys.emit, hd]
  · simp only [hs, if_false]
    cases env.copyDiscard resp <;> simp [Sys.emit]

/-! ## Lemmas on the JSON encoding -/

theorem unquoteLoop_raw (f b : Nat) (more : List Nat)
    (h1 : b ≠ 0x22) (h2 : b ≠ 0x5C) (h3 : ¬ b < 0x20) :
    unquoteLoop (f + 1) (b :: more) = andThen [b] (unquoteLoop f more) := by
  simp [unquoteLoop, h1, h2, h3]

theorem andThen_andThen (p q : List Nat) (r : Option (List Nat × List Nat)) :
    andThen p (andThen q r) = andThen (p ++ q) r := by
  cases r <;> simp [andThen]

theorem unquoteLoop_raws (pre : List Nat) (hpre : ∀ x ∈ pre, 0x80 ≤ x) (f : Nat)
    (more : List Nat) :
    unquoteLoop (f + pre.length) (pre ++ more) = andThen pre (unquoteLoop f more) := by
  induction pre with
  | nil => cases h : unquoteLoop f more <;> simp [andThen, h]
  | cons b pre ih =>
    have hb : 0x80 ≤ b := hpre b (List.mem_cons_self _ _)
    have := ih (fun x hx => hpre x (List.mem_cons_of_mem _ hx))
    rw [List.length_cons, ← Nat.add_assoc, List.cons_append,
      unquoteLoop_raw _ _ _ (by omega) (by omega) (by omega), this, andThen_andThen]
    rfl

theorem unquoteLoop_ascii (f b : Nat) (more : List Nat) (hb : b < 0x80) :
    unquoteLoop (f + 1) ((if htmlSafe b then [b] else escapeByte b) ++ more) =
      andThen [b] (unquoteLoop f more) := by
  by_cases hs : htmlSafe b = true
  · rw [if_pos hs]
    simp only [htmlSafe, Bool.and_eq_true, decide_eq_true_eq, bne_iff_ne, ne_eq] at hs
    exact unquoteLoop_raw _ _ _ (by omega) (by omega) (by omega)
  · rw [if_neg hs]
    have hcases : b < 0x20 ∨ b = 0x22 ∨ b = 0x26 ∨ b = 0x3C ∨ b = 0x3E ∨ b = 0x5C := by
      simp only [htmlSafe, Bool.and_eq_true, decide_eq_true_eq, bne_iff_ne, ne_eq] at hs
      omega
    rcases hcases with h | h | h | h | h | h
    · interval_cases b <;>
        simp [escapeByte, ascii, hexDigit, unquoteLoop, readHex4, hexValue, encodeRune,
          simpleEscape]
    all_goals
      subst h
      simp [escapeByte, ascii, hexDigit, unquoteLoop, readHex4, hexValue, encodeRune,
        simpleEscape]

theorem decodeRune_wide (b : Nat) (rest : List Nat) (hb : 0x80 ≤ b)
    (hv : ¬ ((decodeRune (b :: rest)).1 = runeError ∧ (decodeRune (b :: rest)).2 = 1)) :
    (∀ x ∈ (b :: rest).take (decodeRune (b :: rest)).2, 0x80 ≤ x) ∧
      ((b :: rest).take (decodeRune (b :: rest)).2).length = (decodeRune (b :: rest)).2 ∧
      1 ≤ (decodeRune (b :: rest)).2 ∧
      ((decodeRune (b :: rest)).1 = 0x2028 →
        (b :: rest).take (decodeRune (b :: rest)).2 = [0xE2, 0x80, 0xA8]) ∧
      ((decodeRune (b :: rest)).1 = 0x2029 →
        (b :: rest).take (decodeRune (b :: rest)).2 = [0xE2, 0x80, 0xA9]) := by
  have h0 : ¬ b < 0x80 := by omega
  unfold decodeRune at hv ⊢
  simp only [h0, if_false] at hv ⊢
  by_cases h1 : b < 0xC2
  · simp [h1] at hv
  simp only [h1, if_false] at hv ⊢
  by_cases h2 : b ≤ 0xDF
  · simp only [h2, if_true] at hv ⊢
    rcases rest with _ | ⟨b1, rest⟩
    · simp at hv
    · by_cases hc : isCont b1 = true
      · simp only [hc, if_true] at hv ⊢
        simp only [isCont, Bool.and_eq_true, decide_eq_true_eq] at hc
        refine ⟨?_, by simp, by omega, ?_, ?_⟩
        · intro x hx
          simp at hx
          rcases hx with hx | hx <;> subst hx <;> omega
        · intro h; omega
        · intro h; omega
      · simp [hc] at hv
  simp only [h2, if_false] at hv ⊢
  by_cases h3 : b ≤ 0xEF
  · simp only [h3, if_true] at hv ⊢
    rcases rest with _ | ⟨b1, _ | ⟨b2, rest⟩⟩
    · simp at hv
    · simp at hv
    · by_cases hc : (secondByteRange b).1 ≤ b1 ∧ b1 ≤ (secondByteRange b).2 ∧ isCont b2 = true
      · simp only [hc, and_self, if_true] at hv ⊢
        obtain ⟨hc1, hc2, hc3⟩ := hc
        simp only [isCont, Bool.and_eq_true, decide_eq_true_eq] at hc3
        have hr : 0x80 ≤ b1 ∧ b1 ≤ 0xBF := by
          unfold secondByteRange at hc1 hc2
          split_ifs at hc1 hc2 <;> simp at hc1 hc2 <;> omega
        refine ⟨?_, by simp, by omega, ?_, ?_⟩
        · intro x hx
          simp at hx
          rcases hx with hx | hx | hx <;> subst hx <;> omega
        · intro h
          have : b = 0xE2 ∧ b1 = 0x80 ∧ b2 = 0xA8 := by omega
          simp [this]
        · intro h
          have : b = 0xE2 ∧ b1 = 0x80 ∧ b2 = 0xA9 := by omega
          simp [this]
      · simp [hc] at hv
  simp only [h3, if_false] at hv ⊢
  by_cases h4 : b ≤ 0xF4
  · simp only [h4, if_true] at hv ⊢
    rcases rest with _ | ⟨b1, _ | ⟨b2, _ | ⟨b3, rest⟩⟩⟩
    · simp at hv
    · simp at hv
    · simp at hv
    · by_cases hc : (secondByteRange b).1 ≤ b1 ∧ b1 ≤ (secondByteRange b).2 ∧
          isCont b2 = true ∧ isCont b3 = true
      · simp only [hc, and_self, if_true] at hv ⊢
        obtain ⟨hc1, hc2, hc3, hc4⟩ := hc
        simp only [isCont, Bool.and_eq_true, decide_eq_true_eq] at hc3 hc4
        have hr : 0x80 ≤ b1 ∧ b1 ≤ 0xBF ∧ (b = 0xF0 → 0x90 ≤ b1) := by
          unfold secondByteRange at hc1 hc2
          split_ifs at hc1 hc2 <;> simp at hc1 hc2 <;> omega
        refine ⟨?_, by simp, by omega, ?_, ?_⟩
        · intro x hx
          simp at hx
          rcases hx with hx | hx | hx | hx <;> subst hx <;> omega
        · intro h; omega
        · intro h; omega
      · simp [hc] at hv
  · simp [h4] at hv

theorem unquoteLoop_line_separator (f d : Nat) (more : List Nat) (hd : d = 8 ∨ d = 9) :
    unquoteLoop (f + 1) (ascii "\\u202" ++ [hexDigit d] ++ more) =
      andThen [0xE2, 0x80, 0xA0 + d] (unquoteLoop f more) := by
  rcases hd with h | h <;> subst h <;>
    simp [ascii, hexDigit, unquoteLoop, readHex4, hexValue, encodeRune]

theorem unquoteLoop_quoteLoop (n : Nat) :
    ∀ (c : List Nat) (f : Nat) (tail : List Nat), validUTF8 n c = true →
      (quoteLoop n c).length < f →
      unquoteLoop f (quoteLoop n c ++ 0x22 :: tail) = some (c, tail) := by
  induction n with
  | zero =>
    intro c f tail hv hf
    cases c with
    | nil =>
      obtain ⟨f1, rfl⟩ : ∃ f1, f = f1 + 1 := ⟨f - 1, by simp [quoteLoop] at hf; omega⟩
      simp [quoteLoop, unquoteLoop]
    | cons b rest => simp [validUTF8] at hv
  | succ n ih =>
    intro c f tail hv hf
    cases c with
    | nil =>
      obtain ⟨f1, rfl⟩ : ∃ f1, f = f1 + 1 := ⟨f - 1, by simp [quoteLoop] at hf; omega⟩
      simp [quoteLoop, unquoteLoop]
    | cons b rest =>
      by_cases hb : b < 0x80
      · have hdec : decodeRune (b :: rest) = (b, 1) := by simp [decodeRune, hb]
        have hv1 : validUTF8 n rest = true := by
          simp only [validUTF8, hdec] at hv
          have he : ¬ (b = runeError ∧ True) := by
            intro h; rw [h.1] at hb; simp [runeError] at hb
          rw [if_neg he] at hv
          simpa using hv
        have hq : quoteLoop (n + 1) (b :: rest) =
            (if htmlSafe b then [b] else escapeByte b) ++ quoteLoop n rest := by
          simp [quoteLoop, hb]
        rw [hq] at hf ⊢
        rw [List.length_append] at hf
        obtain ⟨f1, rfl⟩ : ∃ f1, f = f1 + 1 := ⟨f - 1, by omega⟩
        have hlen : 1 ≤ (if htmlSafe b then [b] else escapeByte b).length := by
          split_ifs
          · simp
          · unfold escapeByte; split_ifs <;> simp [ascii]
        rw [List.append_assoc, unquoteLoop_ascii f1 b _ hb, ih rest f1 tail hv1 (by omega)]
        rfl
      · have hb1 : 0x80 ≤ b := by omega
        have hok : ¬ ((decodeRune (b :: rest)).1 = runeError ∧ (decodeRune (b :: rest)).2 = 1) := by
          intro he
          simp [validUTF8, he] at hv
        have hv1 : validUTF8 n ((b :: rest).drop (decodeRune (b :: rest)).2) = true := by
          simp only [validUTF8] at hv
          simpa [hok] using hv
        obtain ⟨hwide, hlen, hpos, h28, h29⟩ := decodeRune_wide b rest hb1 hok
        have hsplit : (b :: rest).take (decodeRune (b :: rest)).2 ++
            (b :: rest).drop (decodeRune (b :: rest)).2 = b :: rest := List.take_append_drop _ _
        by_cases hsep : (decodeRune (b :: rest)).1 = 0x2028 ∨ (decodeRune (b :: rest)).1 = 0x2029
        · have hq : quoteLoop (n + 1) (b :: rest) =
              ascii "\\u202" ++ [hexDigit ((decodeRune (b :: rest)).1 % 16)] ++
                quoteLoop n ((b :: rest).drop (decodeRune (b :: rest)).2) := by
            simp only [quoteLoop, hb, if_false, hok, hsep, if_true]
          rw [hq] at hf ⊢
          simp only [List.length_append] at hf
          obtain ⟨f1, rfl⟩ : ∃ f1, f = f1 + 1 := ⟨f - 1, by omega⟩
          have hd : (decodeRune (b :: rest)).1 % 16 = 8 ∨ (decodeRune (b :: rest)).1 % 16 = 9 := by
            rcases hsep with h | h <;> rw [h] <;> simp
          rw [List.append_assoc, unquoteLoop_line_separator f1 _ _ hd,
            ih _ f1 tail hv1 (by simp [ascii] at hf; omega)]
          have htake : (b :: rest).take (decodeRune (b :: rest)).2 =
              [0xE2, 0x80, 0xA0 + (decodeRune (b :: rest)).1 % 16] := by
            rcases hsep with h | h
            · rw [h28 h, h]
            · rw [h29 h, h]
          simp only [andThen, Option.map_some']
          rw [← htake, hsplit]
        · have hq : quoteLoop (n + 1) (b :: rest) =
              (b :: rest).take (decodeRune (b :: rest)).2 ++
                quoteLoop n ((b :: rest).drop (decodeRune (b :: rest)).2) := by
            simp only [quoteLoop, hb, if_false, hok, hsep]
          rw [hq] at hf ⊢
          rw [List.length_append, hlen] at hf
          obtain ⟨f1, rfl⟩ : ∃ f1, f = f1 + (decodeRune (b :: rest)).2 :=
            ⟨f - (decodeRune (b :: rest)).2, by omega⟩
          have := unquoteLoop_raws _ hwide f1
            (quoteLoop n ((b :: rest).drop (decodeRune (b :: rest)).2) ++ 0x22 :: tail)
          rw [hlen] at this
          rw [List.append_assoc, this, ih _ f1 tail hv1 (by omega)]
          simp only [andThen, Option.map_some']
          rw [hsplit]

theorem skipSpace_cons (c : Nat) (rest : List Nat)
    (h : ¬ (c = 0x20 ∨ c = 0x09 ∨ c = 0x0A ∨ c = 0x0D)) :
    skipSpace (c :: rest) = c :: rest := by
  simp only [skipSpace, h, if_false]

theorem readString_jsonQuote (c tail : List Nat) (hv : isValidUTF8 c = true) :
    readString (jsonQuote c ++ tail) = some (c, tail) := by
  unfold readString jsonQuote
  simp only [List.singleton_append, List.cons_append, List.append_assoc]
  rw [skipSpace_cons _ _ (by decide)]
  simp only
  exact unquoteLoop_quoteLoop c.length c _ tail hv (by simp; omega)

theorem readMembers_two (k1 v1 k2 v2 tail : List Nat) (fuel : Nat)
    (hk1 : isValidUTF8 k1 = true) (hv1 : isValidUTF8 v1 = true)
    (hk2 : isValidUTF8 k2 = true) (hv2 : isValidUTF8 v2 = true) :
    readMembers (fuel + 2)
        (jsonQuote k1 ++ (0x3A :: (jsonQuote v1 ++ (0x2C ::
          (jsonQuote k2 ++ (0x3A :: (jsonQuote v2 ++ (0x7D :: tail)))))))) =
      some ([(k1, v1), (k2, v2)], tail) := by
  simp only [readMembers, readString_jsonQuote _ _ hk1, readString_jsonQuote _ _ hv1,
    readString_jsonQuote _ _ hk2, readString_jsonQuote _ _ hv2,
    skipSpace_cons 0x3A _ (by decide), skipSpace_cons 0x2C _ (by decide),
    skipSpace_cons 0x7D _ (by decide)]
  rfl

theorem jsonDecodeObject_uploadRequest (env : Env) (keyBytes : List Nat)
    (hvalid : isValidUTF8 keyBytes = true) :
    jsonDecodeObject (uploadRequest env keyBytes).Body =
      some [(ascii "key", keyBytes), (ascii "title", ascii "GitHub CLI")] := by
  have horder : [(ascii "title", ascii "GitHub CLI"), (ascii "key", keyBytes)].foldr
      insertEntry [] = [(ascii "key", keyBytes), (ascii "title", ascii "GitHub CLI")] := by
    simp [insertEntry, ascii, bytesLt]
  unfold uploadRequest
  simp only [horder, encodeMembers]
  unfold jsonDecodeObject
  have hq : ∀ s : List Nat, ∃ q, jsonQuote s = 0x22 :: q := fun s => ⟨_, rfl⟩
  obtain ⟨q, hq⟩ := hq (ascii "key")
  simp only [List.singleton_append, List.cons_append, List.append_assoc, List.nil_append,
    skipSpace_cons 0x7B _ (by decide)]
  rw [hq]
  simp only [List.cons_append, skipSpace_cons 0x22 _ (by decide), List.length_cons]
  generalize hY : (0x3A :: (jsonQuote keyBytes ++ 0x2C :: (jsonQuote (ascii "title") ++
    0x3A :: (jsonQuote (ascii "GitHub CLI") ++ [0x7D])))) = Y
  obtain ⟨m, hm⟩ : ∃ m, (q ++ Y).length + 1 = m + 2 :=
    ⟨q.length + (Y.length - 1), by rw [List.length_append, ← hY]; simp; omega⟩
  rw [hm, show 0x22 :: (q ++ Y) = jsonQuote (ascii "key") ++ Y from by rw [hq]; rfl, ← hY,
    readMembers_two _ _ _ _ [] _ (by decide) hvalid (by decide) (by decide)]
  simp [skipSpace]

/-! ## Key generation: claims -/

/-- C4: when the tool is found, the user consents and a private key exists at the
canonical destination, `generateSSHKey` returns the empty path with the error
"refusing to overwrite file <path>", and the run creates no directory, asks for no
passphrase and launches no process; in every run a process is launched only when the
existence check on the destination did not find a file. -/
theorem generateSSHKey_refuses_existing_key (env : Env) (s : Sys) (keygenExe sshDir : String)
    (hfind : (findKeygen env s).1 = .ok keygenExe)
    (hconsent : env.confirm confirmMessage true = .ok true)
    (hhome : env.homeDirPath ".ssh" = .ok sshDir)
    (hexists : env.stat (keyPath sshDir) = none) :
    (generateSSHKey env s).1 =
        ("", some (.plain ("refusing to overwrite file " ++ keyPath sshDir))) ∧
      (generateSSHKey env s).2 =
        ⟨s.log ++ (findKeygenEffects env ++
          [.confirm confirmMessage true, .homeDirPath ".ssh", .stat (keyPath sshDir)]),
          s.openHandles⟩ ∧
      (∀ e ∈ findKeygenEffects env ++
          [.confirm confirmMessage true, .homeDirPath ".ssh", .stat (keyPath sshDir)],
        e.isWrite = false ∧ e.isPassword = false ∧ e.isRun = false) ∧
      (∀ (env2 : Env) (exe : String) (args : List String),
        Event.run exe args ∈ generateEffects env2 →
          ∃ d err, env2.homeDirPath ".ssh" = .ok d ∧ env2.stat (keyPath d) = some err) := by
  have hfind0 : (findKeygen env Sys.init).1 = .ok keygenExe := by
    rw [findKeygen_state env s] at hfind; exact hfind
  have hrun := generateSSHKey_found env s keygenExe hfind0
  simp only [hconsent, hhome, hexists] at hrun
  refine ⟨by rw [hrun], by rw [hrun]; simp, ?_, ?_⟩
  · intro e he
    rcases List.mem_append.mp he with h | h
    · have := lookup_not_other e (findKeygenEffects_lookup env e h)
      exact ⟨this.2.2.1, this.2.1, this.2.2.2⟩
    · simp at h
      rcases h with h | h | h <;> subst h <;> simp [Event.isWrite, Event.isPassword, Event.isRun]
  · intro env2 exe args hmem
    unfold generateEffects at hmem
    have hnot : Event.run exe args ∉ findKeygenEffects env2 := by
      intro hin
      have := lookup_not_other _ (findKeygenEffects_lookup env2 _ hin)
      simp [Event.isRun] at this
    cases hf : (findKeygen env2 Sys.init).1 with
    | error err =>
      rw [generateSSHKey_not_found env2 Sys.init err hf] at hmem
      simp [Sys.init] at hmem
      exact absurd hmem hnot
    | ok exe2 =>
      rw [generateSSHKey_found env2 Sys.init exe2 hf] at hmem
      cases hc : env2.confirm confirmMessage true with
      | error e1 => simp [hc, Sys.init, hnot] at hmem
      | ok choice =>
        cases choice with
        | false => simp [hc, Sys.init, hnot] at hmem
        | true =>
          cases hh : env2.homeDirPath ".ssh" with
          | error e2 => simp [hc, hh, Sys.init, hnot] at hmem
          | ok d =>
            cases hs : env2.stat (keyPath d) with
            | none => simp [hc, hh, hs, Sys.init, hnot] at hmem
            | some e3 => exact ⟨d, e3, rfl, hs⟩

/-- C4, at a host where the key exists: the hypotheses hold and the run ends with
the refusal after the existence check. -/
theorem generateSSHKey_refuses_existing_key_witness :
    (generateSSHKey existingKeyEnv Sys.init).1 =
        ("", some (.plain "refusing to overwrite file /home/u/.ssh/id_ed25519")) ∧
      (generateSSHKey existingKeyEnv Sys.init).2.log =
        [.lookPath "ssh-keygen", .confirm confirmMessage true, .homeDirPath ".ssh",
          .stat "/home/u/.ssh/id_ed25519"] := by
  have h := generateSSHKey_refuses_existing_key existingKeyEnv Sys.init "/usr/bin/ssh-keygen"
    "/home/u/.ssh" (by rfl) (by rfl) (by rfl) (by decide)
  refine ⟨?_, ?_⟩
  · rw [h.1]; decide
  · rw [h.2.1]; decide

/-- C5: whenever `findKeygen` fails, `generateSSHKey` returns the empty path and no
error, and ends in the state `findKeygen` left: beyond the locator's own look-ups
the run asks no prompt, touches no file and launches no process. -/
theorem generateSSHKey_skips_without_keygen (env : Env) (s : Sys) (err : GoError)
    (hfind : (findKeygen env s).1 = .error err) :
    generateSSHKey env s = (("", none), (findKeygen env s).2) ∧
      (generateSSHKey env s).2 = ⟨s.log ++ findKeygenEffects env, s.openHandles⟩ ∧
      ∀ e ∈ findKeygenEffects env,
        e.isLookup = true ∧ e.isPrompt = false ∧ e.isWrite = false ∧ e.isRun = false := by
  have hfind0 : (findKeygen env Sys.init).1 = .error err := by
    rw [findKeygen_state env s] at hfind; exact hfind
  have hrun := generateSSHKey_not_found env s err hfind0
  refine ⟨?_, by rw [hrun], ?_⟩
  · rw [hrun, findKeygen_state env s]
  · intro e he
    have hl := findKeygenEffects_lookup env e he
    have := lookup_not_other e hl
    exact ⟨hl, this.1, this.2.2.1, this.2.2.2⟩

/-- C5, at a host without the tool: the run is the single failed look-up. -/
theorem generateSSHKey_skips_without_keygen_witness :
    generateSSHKey noKeygenEnv Sys.init = (("", none), ⟨[.lookPath "ssh-keygen"], []⟩) := by
  have h := generateSSHKey_skips_without_keygen noKeygenEnv Sys.init
    (.plain "executable file not found in $PATH") (by rfl)
  rw [h.1]; rfl

/-- C6: when the tool is found at `keygenExe`, the user consents, no key exists at
the destination `keyPath sshDir`, the directory is ensured and the passphrase prompt
yields `pw`, the run launches exactly one process, the tool with the arguments
`-t ed25519 -C "" -N pw -f <destination>`; the result is the destination plus
`.pub` together with the error of the tool, hence no error when it exits zero. -/
theorem generateSSHKey_invokes_keygen (env : Env) (s : Sys) (keygenExe sshDir pw : String)
    (statErr : GoError)
    (hfind : (findKeygen env s).1 = .ok keygenExe)
    (hconsent : env.confirm confirmMessage true = .ok true)
    (hhome : env.homeDirPath ".ssh" = .ok sshDir)
    (hfree : env.stat (keyPath sshDir) = some statErr)
    (hmkdir : env.mkdirAll (filepathDir (keyPath sshDir)) sshDirPerm = none)
    (hpw : env.password passphraseMessage = .ok pw) :
    (∃ added, (generateSSHKey env s).2 = ⟨s.log ++ added, s.openHandles⟩ ∧
        added.filter Event.isRun =
          [.run keygenExe ["-t", "ed25519", "-C", "", "-N", pw, "-f", keyPath sshDir]]) ∧
      (generateSSHKey env s).1 =
        (keyPath sshDir ++ ".pub",
          env.run keygenExe ["-t", "ed25519", "-C", "", "-N", pw, "-f", keyPath sshDir]) ∧
      (env.run keygenExe ["-t", "ed25519", "-C", "", "-N", pw, "-f", keyPath sshDir] = none →
        (generateSSHKey env s).1 = (keyPath sshDir ++ ".pub", none)) := by
  have hfind0 : (findKeygen env Sys.init).1 = .ok keygenExe := by
    rw [findKeygen_state env s] at hfind; exact hfind
  have hrun := generateSSHKey_found env s keygenExe hfind0
  simp only [hconsent, hhome, hfree, hmkdir, hpw] at hrun
  have hnone : (findKeygenEffects env).filter Event.isRun = [] := by
    rw [List.filter_eq_nil_iff]
    intro e he
    have := lookup_not_other e (findKeygenEffects_lookup env e he)
    simp [this.2.2.2]
  refine ⟨⟨findKeygenEffects env ++
      [.confirm confirmMessage true, .homeDirPath ".ssh", .stat (keyPath sshDir),
        .mkdirAll (filepathDir (keyPath sshDir)) sshDirPerm, .password passphraseMessage,
        .run keygenExe (keygenArgs pw (keyPath sshDir))], ?_, ?_⟩, ?_, ?_⟩
  · rw [hrun]; simp
  · rw [List.filter_append, hnone]
    simp [Event.isRun, keygenArgs]
  · rw [hrun]; rfl
  · intro hzero
    rw [hrun]
    simp only [keygenArgs]
    rw [hzero]

/-- C6, at a fresh host with an empty passphrase: the tool runs once with an empty
`-N` argument and the public-key path comes back without an error. -/
theorem generateSSHKey_invokes_keygen_witness :
    (generateSSHKey freshEnv Sys.init).1 = ("/home/u/.ssh/id_ed25519.pub", none) ∧
      (generateSSHKey freshEnv Sys.init).2.log.filter Event.isRun =
        [.run "/usr/bin/ssh-keygen"
          ["-t", "ed25519", "-C", "", "-N", "", "-f", "/home/u/.ssh/id_ed25519"]] := by
  have h := generateSSHKey_invokes_keygen freshEnv Sys.init "/usr/bin/ssh-keygen"
    "/home/u/.ssh" "" (.plain "no such file or directory")
    (by rfl) (by rfl) (by rfl) (by rfl) (by rfl) (by rfl)
  refine ⟨?_, by decide⟩
  rw [h.2.2 (by rfl)]; decide

/-- C9 as stated fails: the mode of the directory `generateSSHKey` creates on a fresh
host has bits in common with `0o077`. -/
theorem mkdir_mode_group_other_counterexample :
    Event.mkdirAll "/home/u/.ssh" 0o711 ∈ (generateSSHKey freshEnv Sys.init).2.log ∧
      (0o711 : Nat) &&& 0o077 = 0o011 ∧ sshDirPerm &&& 0o077 ≠ 0 := by
  decide

/-- C9 amended: when `generateSSHKey` reaches the directory step it asks for the
parent directory of the key with mode `0o711`, every directory it creates has that
mode, and the mode gives the owner read, write and traversal, gives group and others
traversal, and gives group and others neither read nor write. -/
theorem mkdir_mode_owner_only_write (env : Env) (s : Sys) (keygenExe sshDir : String)
    (statErr : GoError)
    (hfind : (findKeygen env s).1 = .ok keygenExe)
    (hconsent : env.confirm confirmMessage true = .ok true)
    (hhome : env.homeDirPath ".ssh" = .ok sshDir)
    (hfree : env.stat (keyPath sshDir) = some statErr) :
    Event.mkdirAll (filepathDir (keyPath sshDir)) 0o711 ∈ (generateSSHKey env s).2.log ∧
      (∀ (env2 : Env) (path : String) (perm : Nat),
        Event.mkdirAll path perm ∈ generateEffects env2 → perm = 0o711) ∧
      (0o711 : Nat) &&& 0o700 = 0o700 ∧ (0o711 : Nat) &&& 0o066 = 0 ∧
      (0o711 : Nat) &&& 0o011 = 0o011 := by
  have hfind0 : (findKeygen env Sys.init).1 = .ok keygenExe := by
    rw [findKeygen_state env s] at hfind; exact hfind
  have hrun := generateSSHKey_found env s keygenExe hfind0
  simp only [hconsent, hhome, hfree] at hrun
  refine ⟨?_, ?_, by decide, by decide, by decide⟩
  · rw [hrun]
    cases env.mkdirAll (filepathDir (keyPath sshDir)) sshDirPerm with
    | some e => simp [sshDirPerm]
    | none =>
      cases env.password passphraseMessage with
      | error e => simp [sshDirPerm]
      | ok pw => simp [sshDirPerm]
  · intro env2 path perm hmem
    unfold generateEffects at hmem
    have hnot : Event.mkdirAll path perm ∉ findKeygenEffects env2 := by
      intro hin
      have := lookup_not_other _ (findKeygenEffects_lookup env2 _ hin)
      simp [Event.isWrite] at this
    cases hf : (findKeygen env2 Sys.init).1 with
    | error err =>
      rw [generateSSHKey_not_found env2 Sys.init err hf] at hmem
      simp [Sys.init] at hmem
      exact absurd hmem hnot
    | ok exe2 =>
      rw [generateSSHKey_found env2 Sys.init exe2 hf] at hmem
      cases hc : env2.confirm confirmMessage true with
      | error e1 => simp [hc, Sys.init, hnot] at hmem
      | ok choice =>
        cases choice with
        | false => simp [hc, Sys.init, hnot] at hmem
        | true =>
          cases hh : env2.homeDirPath ".ssh" with
          | error e2 => simp [hc, hh, Sys.init, hnot] at hmem
          | ok d =>
            cases hs : env2.stat (keyPath d) with
            | none => simp [hc, hh, hs, Sys.init, hnot] at hmem
            | some e3 =>
              cases hm : env2.mkdirAll (filepathDir (keyPath d)) sshDirPerm with
              | some e4 =>
                simp [hc, hh, hs, hm, Sys.init, hnot] at hmem
                rw [hmem.2]; rfl
              | none =>
                cases hp : env2.password passphraseMessage with
                | error e5 =>
                  simp [hc, hh, hs, hm, hp, Sys.init, hnot] at hmem
                  rw [hmem.2]; rfl
                | ok pw =>
                  simp [hc, hh, hs, hm, hp, Sys.init, hnot] at hmem
                  rw [hmem.2]; rfl

/-- C9 amended, at a fresh host: the directory of the key is created with `0o711`. -/
theorem mkdir_mode_owner_only_write_witness :
    Event.mkdirAll (filepathDir (keyPath "/home/u/.ssh")) 0o711 ∈
      (generateSSHKey freshEnv Sys.init).2.log :=
  (mkdir_mode_owner_only_write freshEnv Sys.init "/usr/bin/ssh-keygen" "/home/u/.ssh"
    (.plain "no such file or directory") (by rfl) (by rfl) (by rfl) (by rfl)).1

/-! ## Upload: claims -/

/-- C1: `isDuplicateError` holds exactly for status 422 with a sub-error list of
exactly one element whose field is "key" and whose message is "key is already in
use"; it is false for an empty list, for another message, for every other status, and
for every list of two or more sub-errors whatever the first one is. -/
theorem isDuplicateError_iff_duplicate_shape :
    (∀ e : HTTPError, isDuplicateError e = true ↔
        e.StatusCode = 422 ∧ e.Errors.length = 1 ∧
          ∃ item, e.Errors = [item] ∧ item.Field = "key" ∧
            item.Message = "key is already in use") ∧
      isDuplicateError ⟨422, []⟩ = false ∧
      isDuplicateError ⟨422, [⟨"key", "other"⟩]⟩ = false ∧
      (∀ e : HTTPError, e.StatusCode ≠ 422 → isDuplicateError e = false) ∧
      (∀ (code : Int) (first second : HTTPErrorItem) (more : List HTTPErrorItem),
        isDuplicateError ⟨code, first :: second :: more⟩ = false) := by
  refine ⟨?_, by decide, by decide, ?_, ?_⟩
  · intro e
    rcases e with ⟨code, errs⟩
    unfold isDuplicateError
    rcases errs with _ | ⟨item, _ | ⟨second, more⟩⟩ <;> simp
  · intro e h
    unfold isDuplicateError
    simp [h]
  · intro code first second more
    unfold isDuplicateError
    simp

/-- C2: for a key file that is opened and read and a response with a status above
299: when the error parsed from the response is a structured API error of the
duplicate-key shape, `sshKeyUpload` returns no error; otherwise it returns the parsed
error itself. -/
theorem sshKeyUpload_error_response (env : Env) (keyFile : String) (s : Sys)
    (keyBytes : List Nat) (resp : Response)
    (hopen : env.osOpen keyFile = none)
    (hread : env.readAll keyFile = .ok keyBytes)
    (hurl : env.urlError (env.restPrefixURL ++ "user/keys") = none)
    (hdo : env.httpDo (uploadRequest env keyBytes) = .ok resp)
    (hstatus : resp.StatusCode > 299) :
    (isDuplicateConflict env resp → (sshKeyUpload env keyFile s).1 = none) ∧
      (¬ isDuplicateConflict env resp →
        (sshKeyUpload env keyFile s).1 = env.handleHTTPError resp) := by
  rw [sshKeyUpload_sent env keyFile s keyBytes hopen hread hurl, hdo]
  simp only [handleResponse_result, hstatus, if_true]
  unfold isDuplicateConflict
  constructor
  · rintro ⟨h, hh, hdup⟩
    simp [hh, hdup]
  · intro hnot
    cases hh : errorsAs (env.handleHTTPError resp) with
    | none => rfl
    | some h =>
      have : isDuplicateError h = false := by
        cases hd : isDuplicateError h with
        | false => rfl
        | true => exact absurd ⟨h, hh, hd⟩ hnot
      simp [this]

/-- C2, at a server that reports the duplicate-key conflict and at one that fails:
the first upload returns no error, the second the parsed error. -/
theorem sshKeyUpload_error_response_witness :
    (sshKeyUpload duplicateEnv "/home/u/.ssh/id_ed25519.pub" Sys.init).1 = none ∧
      (sshKeyUpload failingEnv "/home/u/.ssh/id_ed25519.pub" Sys.init).1 =
        some (.http ⟨500, []⟩) := by
  constructor
  · exact (sshKeyUpload_error_response duplicateEnv "/home/u/.ssh/id_ed25519.pub" Sys.init
      (ascii "ssh-ed25519 AAAA\n") ⟨422, []⟩ (by rfl) (by rfl) (by rfl) (by rfl) (by decide)).1
      ⟨⟨422, [⟨"key", "key is already in use"⟩]⟩, by rfl, by decide⟩
  · exact (sshKeyUpload_error_response failingEnv "/home/u/.ssh/id_ed25519.pub" Sys.init
      (ascii "ssh-ed25519 AAAA\n") ⟨500, []⟩ (by rfl) (by rfl) (by rfl) (by rfl) (by decide)).2
      (by rintro ⟨h, hh, hdup⟩
          have : h = ⟨500, []⟩ := by
            have h2 : errorsAs (failingEnv.handleHTTPError ⟨500, []⟩) = some ⟨500, []⟩ := by rfl
            rw [h2] at hh; exact (Option.some.inj hh).symm
          subst this
          exact absurd hdup (by decide))

/-- C3 as stated fails: a `101` response whose body drains is neither a 2xx status
nor the duplicate-key conflict, and `sshKeyUpload` returns no error. -/
theorem sshKeyUpload_status_below_200_counterexample :
    switchingEnv.osOpen "/home/u/.ssh/id_ed25519.pub" = none ∧
      switchingEnv.httpDo (uploadRequest switchingEnv (ascii "ssh-ed25519 AAAA\n")) =
        .ok ⟨101, []⟩ ∧
      switchingEnv.copyDiscard ⟨101, []⟩ = none ∧
      (sshKeyUpload switchingEnv "/home/u/.ssh/id_ed25519.pub" Sys.init).1 = none ∧
      ¬ ((200 : Int) ≤ 101 ∧ (101 : Int) ≤ 299) ∧
      ¬ isDuplicateConflict switchingEnv ⟨101, []⟩ := by
  refine ⟨by rfl, by rfl, by rfl, by decide, by decide, ?_⟩
  rintro ⟨h, hh, hdup⟩
  have h2 : errorsAs (switchingEnv.handleHTTPError ⟨101, []⟩) = some ⟨101, []⟩ := by rfl
  rw [h2] at hh
  have : h = ⟨101, []⟩ := (Option.some.inj hh).symm
  subst this
  exact absurd hdup (by decide)

/-- C3 amended: when the key file is read, the request is built and sent, the body
drains without error and parsing the response yields an error value, `sshKeyUpload`
returns no error exactly when the status is at most 299 or the response is the
duplicate-key conflict; every status above 299 that is not the conflict returns the
parsed, non-nil error. -/
theorem sshKeyUpload_ok_iff_status_or_duplicate (env : Env) (keyFile : String) (s : Sys)
    (keyBytes : List Nat) (resp : Response)
    (hopen : env.osOpen keyFile = none)
    (hread : env.readAll keyFile = .ok keyBytes)
    (hurl : env.urlError (env.restPrefixURL ++ "user/keys") = none)
    (hdo : env.httpDo (uploadRequest env keyBytes) = .ok resp)
    (hdrain : env.copyDiscard resp = none)
    (hparse : env.handleHTTPError resp ≠ none) :
    ((sshKeyUpload env keyFile s).1 = none ↔
        resp.StatusCode ≤ 299 ∨ isDuplicateConflict env resp) ∧
      (299 < resp.StatusCode → ¬ isDuplicateConflict env resp →
        ∃ err, (sshKeyUpload env keyFile s).1 = some err ∧
          env.handleHTTPError resp = some err) := by
  rw [sshKeyUpload_sent env keyFile s keyBytes hopen hread hurl, hdo]
  simp only [handleResponse_result]
  obtain ⟨perr, hperr⟩ := Option.ne_none_iff_exists'.mp hparse
  by_cases hstatus : resp.StatusCode > 299
  · have hle : ¬ resp.StatusCode ≤ 299 := by omega
    simp only [hstatus, if_true, hle, false_or]
    have key : ¬ isDuplicateConflict env resp →
        (match errorsAs (env.handleHTTPError resp) with
          | some httpError =>
            if isDuplicateError httpError then none else env.handleHTTPError resp
          | none => env.handleHTTPError resp) = some perr := by
      intro hnot
      unfold isDuplicateConflict at hnot
      cases hh : errorsAs (env.handleHTTPError resp) with
      | none => simp [hperr]
      | some h =>
        have : isDuplicateError h = false := by
          cases hd : isDuplicateError h with
          | false => rfl
          | true => exact absurd ⟨h, hh, hd⟩ hnot
        simp [this, hperr]
    refine ⟨⟨?_, ?_⟩, ?_⟩
    · intro hres
      by_contra hnot
      rw [key hnot] at hres
      exact Option.noConfusion hres
    · rintro ⟨h, hh, hdup⟩
      simp [hh, hdup]
    · intro _ hnot
      exact ⟨perr, key hnot, hperr⟩
  · have hle : resp.StatusCode ≤ 299 := by omega
    simp only [hstatus, if_false, hdrain, hle, true_or, iff_true, true_and]
    intro h
    exact h.elim

/-- C3 amended, at a server that answers 201: the upload returns no error. -/
theorem sshKeyUpload_ok_iff_status_or_duplicate_witness :
    (sshKeyUpload freshEnv "/home/u/.ssh/id_ed25519.pub" Sys.init).1 = none :=
  (sshKeyUpload_ok_iff_status_or_duplicate freshEnv "/home/u/.ssh/id_ed25519.pub" Sys.init
    (ascii "ssh-ed25519 AAAA\n") ⟨201, []⟩ (by rfl) (by rfl) (by rfl) (by rfl) (by rfl)
    (by decide)).1.mpr (Or.inl (by decide))

/-- C10 fails on the code: whenever `sshKeyUpload` has opened the key file, the handle
of the file is still open when the function returns, on every path, and nothing the
run did closed it. -/
theorem sshKeyUpload_leaves_key_file_open (env : Env) (keyFile : String) (s : Sys)
    (hopen : env.osOpen keyFile = none) :
    Handle.file keyFile ∈ (sshKeyUpload env keyFile s).2.openHandles ∧
      ∃ added, (sshKeyUpload env keyFile s).2.log = s.log ++ added ∧
        Event.close (.file keyFile) ∉ added := by
  refine ⟨sshKeyUpload_keeps_file_open env keyFile s hopen, ?_⟩
  cases hread : env.readAll keyFile with
  | error err =>
    exact ⟨[.openFile keyFile, .readAll keyFile],
      by simp [sshKeyUpload, hopen, hread, Sys.emit, Sys.acquire], by simp⟩
  | ok keyBytes =>
    cases hurl : env.urlError (env.restPrefixURL ++ "user/keys") with
    | some err =>
      exact ⟨[.openFile keyFile, .readAll keyFile],
        by simp [sshKeyUpload, hopen, hread, hurl, jsonMarshal, newRequest, Sys.emit,
          Sys.acquire], by simp⟩
    | none =>
      rw [sshKeyUpload_sent env keyFile s keyBytes hopen hread hurl]
      cases env.httpDo (uploadRequest env keyBytes) with
      | error err =>
        exact ⟨[.openFile keyFile, .readAll keyFile, .send (uploadRequest env keyBytes)],
          rfl, by simp⟩
      | ok resp =>
        refine ⟨[.openFile keyFile, .readAll keyFile, .send (uploadRequest env keyBytes),
          if resp.StatusCode > 299 then .handleHTTPError resp else .copyDiscard resp,
          .close (.body resp)], ?_, ?_⟩
        · simp [Sys.release, handleResponse_log]
        · by_cases hs : resp.StatusCode > 299 <;> simp [hs]

/-- C10, at a fresh host whose server answers 201: the upload succeeds, the response
body is closed, and the key file is the one handle left open. -/
theorem sshKeyUpload_leaves_key_file_open_witness :
    (sshKeyUpload freshEnv "/home/u/.ssh/id_ed25519.pub" Sys.init).1 = none ∧
      (sshKeyUpload freshEnv "/home/u/.ssh/id_ed25519.pub" Sys.init).2.openHandles =
        [.file "/home/u/.ssh/id_ed25519.pub"] ∧
      Event.close (.body ⟨201, []⟩) ∈
        (sshKeyUpload freshEnv "/home/u/.ssh/id_ed25519.pub" Sys.init).2.log ∧
      Handle.file "/home/u/.ssh/id_ed25519.pub" ∈
        (sshKeyUpload freshEnv "/home/u/.ssh/id_ed25519.pub" Sys.init).2.openHandles :=
  ⟨by decide, by decide, by decide,
    (sshKeyUpload_leaves_key_file_open freshEnv "/home/u/.ssh/id_ed25519.pub" Sys.init
      (by rfl)).1⟩

/-! ## Key discovery: claims -/

/-- C7 fails on the code: for the user whose home directory is `/home/a[` the SSH
directory resolves and holds the public key `id_ed25519.pub`, and `localPublicKeys`
returns no path and the error `ErrBadPattern`, because the directory is handed to
`filepath.Glob` as part of the pattern; for the user `u` on the same host it returns the
public key of `/home/u/.ssh`. -/
theorem localPublicKeys_bracket_directory_fails :
    bracketHomeEnv.homeDirPath ".ssh" = .ok "/home/a[/.ssh" ∧
      bracketHomeEnv.readDir "/home/a[/.ssh" = some ["id_ed25519", "id_ed25519.pub"] ∧
      filepathMatch "*.pub" "id_ed25519.pub" = .ok true ∧
      localPublicKeys bracketHomeEnv = ([], some errBadPattern) ∧
      localPublicKeys plainHomeEnv = (["/home/u/.ssh/id_rsa.pub"], none) := by
  refine ⟨by rfl, by rfl, by rfl, by decide, by decide⟩

/-- C8 as stated fails: for the key file whose content is the single byte `0xFF` the
request is sent, and decoding its body gives the three bytes of U+FFFD under "key",
not the content of the file. -/
theorem sshKeyUpload_invalid_utf8_counterexample :
    binaryKeyEnv.readAll "/home/u/.ssh/id_ed25519.pub" = .ok [0xFF] ∧
      Event.send (uploadRequest binaryKeyEnv [0xFF]) ∈
        (sshKeyUpload binaryKeyEnv "/home/u/.ssh/id_ed25519.pub" Sys.init).2.log ∧
      (uploadRequest binaryKeyEnv [0xFF]).Body =
        ascii "\x7b\"key\":\"\\ufffd\",\"title\":\"GitHub CLI\"\x7d" ∧
      (jsonDecodeObject (uploadRequest binaryKeyEnv [0xFF]).Body).bind (member (ascii "key")) =
        some [0xEF, 0xBF, 0xBD] ∧
      (jsonDecodeObject (uploadRequest binaryKeyEnv [0xFF]).Body).bind (member (ascii "key")) ≠
        some [0xFF] := by
  refine ⟨by rfl, by decide, by decide, by decide, by decide⟩

/-- C8 amended: for a key file whose content `keyBytes` is well-formed UTF-8, the
one request `sshKeyUpload` sends is a POST to the REST prefix followed by "user/keys";
its body is what `json.Marshal` gives for the map with "title" set to "GitHub CLI" and
"key" set to the content, and decoding the body gives exactly these two members, with
the whole content, untrimmed, under "key". -/
theorem sshKeyUpload_request_payload (env : Env) (keyFile : String) (s : Sys)
    (keyBytes : List Nat)
    (hopen : env.osOpen keyFile = none)
    (hread : env.readAll keyFile = .ok keyBytes)
    (hurl : env.urlError (env.restPrefixURL ++ "user/keys") = none)
    (hvalid : isValidUTF8 keyBytes = true) :
    (∃ added, (sshKeyUpload env keyFile s).2.log = s.log ++ added ∧
        added.filter Event.isSend = [.send (uploadRequest env keyBytes)]) ∧
      (uploadRequest env keyBytes).Method = "POST" ∧
      (uploadRequest env keyBytes).URL = env.restPrefixURL ++ "user/keys" ∧
      jsonMarshal [(ascii "title", ascii "GitHub CLI"), (ascii "key", keyBytes)] =
        .ok (uploadRequest env keyBytes).Body ∧
      jsonDecodeObject (uploadRequest env keyBytes).Body =
        some [(ascii "key", keyBytes), (ascii "title", ascii "GitHub CLI")] ∧
      (jsonDecodeObject (uploadRequest env keyBytes).Body).bind (member (ascii "key")) =
        some keyBytes := by
  have hdec := jsonDecodeObject_uploadRequest env keyBytes hvalid
  refine ⟨?_, rfl, rfl, rfl, hdec, ?_⟩
  · rw [sshKeyUpload_sent env keyFile s keyBytes hopen hread hurl]
    cases env.httpDo (uploadRequest env keyBytes) with
    | error err =>
      exact ⟨[.openFile keyFile, .readAll keyFile, .send (uploadRequest env keyBytes)], rfl,
        by simp [Event.isSend]⟩
    | ok resp =>
      refine ⟨[.openFile keyFile, .readAll keyFile, .send (uploadRequest env keyBytes),
        if resp.StatusCode > 299 then .handleHTTPError resp else .copyDiscard resp,
        .close (.body resp)], ?_, ?_⟩
      · simp [Sys.release, handleResponse_log]
      · by_cases hs : resp.StatusCode > 299 <;> simp [Event.isSend, hs]
  · rw [hdec]
    simp [member, ascii]

/-- C8 amended, at a fresh host: the key file ends in a newline, and the newline is
part of what decoding the body of the request gives back. -/
theorem sshKeyUpload_request_payload_witness :
    (jsonDecodeObject (uploadRequest freshEnv (ascii "ssh-ed25519 AAAA\n")).Body).bind
        (member (ascii "key")) = some (ascii "ssh-ed25519 AAAA\n") :=
  (sshKeyUpload_request_payload freshEnv "/home/u/.ssh/id_ed25519.pub" Sys.init
    (ascii "ssh-ed25519 AAAA\n") (by rfl) (by rfl) (by rfl) (by decide)).2.2.2.2.2

end SshKeys
